import Mathlib

/-!
A shallow embedding of the error-classification and HTTP-response-rendering
layer of the `golang-authentication` repository, covering
`internal/web/errors.go` and `internal/handlers/errors.go`.

Conventions of the embedding:
* Go strings are modelled through their character lists (`String.data`); the
  strings appearing here are ASCII, so Go's byte indexing and character
  indexing agree.
* A Go `map[string]int` is modelled as an association list with first-match
  lookup; a missing key yields the zero value `0`, as in Go.
* A Go panic (index out of range) is modelled by `Option`: `none` is a panic.
* The iteration order of a Go map (which Go leaves unspecified) is made
  explicit as the order of the association list held in the value.
-/

namespace Handlers

/-- The fixed source tag of `ControllerError` values, `"handlers: "`
(`errors.go`: `len("handlers: ")`). -/
def handlersTag : String := "handlers: "

/-- Index of the first `','` in a character list, if any. -/
def firstCommaIdx : List Char → Option Nat
  | [] => none
  | c :: rest => if c = ',' then some 0 else (firstCommaIdx rest).map (· + 1)

/-- The comma-scan of `ControllerError.Public`:
`for i := 1; i < len(s); i++ { if s[i] == ',' { s = s[:i]; break } }`.
The scan starts at index 1, so a comma at index 0 is never found. -/
def extractCode : List Char → List Char
  | [] => []
  | c :: rest =>
    match firstCommaIdx rest with
    | some j => List.take (j + 1) (c :: rest)
    | none => c :: rest

/-- `ControllerError.Public` from `internal/handlers/errors.go`:
`s := string(e)[len("handlers: "):]` followed by the comma scan.
The slice `string(e)[10:]` panics when `len(e) < 10`; the panic is `none`. -/
def Public? (e : String) : Option String :=
  if e.data.length < handlersTag.data.length then none
  else some ⟨extractCode (e.data.drop handlersTag.data.length)⟩

/-- Modelled from the spec: the Error-Code Codec's
`Encode(prefix, code, message) -> "<prefix>: <code>, <message>"`
(the generic codec lives in the `internal/errors` package, which is not under
`src/`; only its `handlers`-tag instance `ControllerError` is). -/
def Encode (tag code msg : String) : String :=
  tag ++ ": " ++ code ++ ", " ++ msg

/-- Modelled from the spec: the Error-Code Codec's
`Decode(prefix, encoded)`, which "strips exactly `len(prefix) + 2` characters
(the prefix plus the delimiter `\": \"`) from the front, then scans forward
for the first comma and returns everything before it". -/
def Decode (tag encoded : String) : String :=
  ⟨(encoded.data.drop (tag.data.length + 2)).takeWhile (· ≠ ',')⟩

end Handlers

namespace Web

/-- Modelled from the spec: a field error of a Validation Aggregate is a
Disclosable error ("a mapping from field-name ... to a Disclosable Error
describing that field's failure"; package `models` is not under `src/`).
A Disclosable error either carries its public code directly or is a
string-encoded `ControllerError`. -/
inductive FieldErr where
  | publicErr (code : String)
  | controller (s : String)
deriving DecidableEq, Repr

/-- The result of calling `Public()` on a field error; `none` is a panic. -/
def FieldErr.publicOf : FieldErr → Option String
  | .publicErr c => some c
  | .controller s => Handlers.Public? s

/-- Modelled from the spec: `models.ValidationError` implements
`models.PublicError` (the renderer's documentation: for a
`models.ValidationError` "an error code of \"validation_error\" is
returned"); `models` is not under `src/`. -/
def validationPublicCode : String := "validation_error"

/-- A Go `error` value as seen by this layer's dynamic type tests:
`internalErr` is any opaque error exposing neither `Public()` nor a field map
(e.g. `errors.New(msg)`); `publicErr` is a Disclosable error carrying its
public code; `validation` is a `models.ValidationError` (field map, in a
fixed iteration order); `shutdownErr` is the `*shutdown` marker of
`web/errors.go`; `wrap` is a cause-preserving wrapper as produced by
`github.com/pkg/errors.Wrap`; `controller` is a `handlers.ControllerError`
with its raw string value. -/
inductive GoError where
  | internalErr (msg : String)
  | publicErr (code : String)
  | validation (fields : List (String × FieldErr))
  | shutdownErr (msg : String)
  | wrap (msg : String) (cause : GoError)
  | controller (s : String)
deriving DecidableEq, Repr

/-- `NewShutdownError` from `internal/web/errors.go`. -/
def NewShutdownError (message : String) : GoError := .shutdownErr message

/-- `errors.Cause` of `github.com/pkg/errors` as used by `IsShutdown`:
follow the cause chain of wrappers to the innermost error. -/
def Cause : GoError → GoError
  | .wrap _ e => Cause e
  | e => e

/-- `IsShutdown` from `internal/web/errors.go`:
`if _, ok := errors.Cause(err).(*shutdown); ok { return true }; return false`. -/
def IsShutdown (err : GoError) : Bool :=
  match Cause err with
  | .shutdownErr _ => true
  | _ => false

/-- The type assertion `err.(models.PublicError)`: does the dynamic type
expose `Public() string`? (`*shutdown` and `pkg/errors` wrappers do not.) -/
def hasPublic : GoError → Bool
  | .publicErr _ => true
  | .validation _ => true
  | .controller _ => true
  | _ => false

/-- The result of calling `Public()` on an error whose type exposes it;
`none` is a panic (a `ControllerError` shorter than its tag). For types
without the method (where the assertion fails) the value is unused. -/
def publicOf : GoError → Option String
  | .publicErr c => some c
  | .validation _ => some validationPublicCode
  | .controller s => Handlers.Public? s
  | _ => none

/-- The type assertion `err.(models.ValidationError)`. -/
def isValidation : GoError → Bool
  | .validation _ => true
  | _ => false

/-- The field map of a validation error (empty for any other error). -/
def fieldsOf : GoError → List (String × FieldErr)
  | .validation fs => fs
  | _ => []

/-- The view `web.Error`: `struct { codes map[string]int }`. -/
structure Error where
  codes : List (String × Nat)
deriving DecidableEq, Repr

/-- A Go map read `e.codes[public]`: the first matching entry, or the zero
value `0` when the key is absent. -/
def Error.lookup (e : Error) (k : String) : Nat :=
  match e.codes.find? (fun p => p.1 == k) with
  | some p => p.2
  | none => 0

/-- `Error.SetCode` from `internal/web/errors.go`:
`e.codes[err.Public()] = code`, a map write that overwrites any prior entry
for the key. The key is `err.Public()`; `none` is a panic inside `Public()`. -/
def Error.SetCode (e : Error) (err : GoError) (code : Nat) : Option Error :=
  (publicOf err).map fun pub =>
    ⟨(pub, code) :: e.codes.filter (fun p => p.1 != pub)⟩

/-- The JSON document built by `Error.JSON`: the `"error"` entry and the
optional `"fields"` entry (a field-name to public-code map, in iteration
order). -/
structure Doc where
  error : String
  fields : Option (List (String × String))
deriving DecidableEq, Repr

/-- The `for field, err := range ve` loop of `Error.JSON`: for each field,
`public := err.Public()` (a panic propagates), the status is overwritten by a
nonzero registered code `if s := e.codes[public]; s != 0 { status = s }`, and
`vem[field] = public`. -/
def renderFields (e : Error) : List (String × FieldErr) → Nat →
    Option (List (String × String) × Nat)
  | [], status => some ([], status)
  | (field, fe) :: rest, status =>
    match fe.publicOf with
    | none => none
    | some pub =>
      let s := e.lookup pub
      match renderFields e rest (if s ≠ 0 then s else status) with
      | none => none
      | some (vem, st) => some ((field, pub) :: vem, st)

/-- `Error.JSON` from `internal/web/errors.go`, up to the delegation to the
external collaborator `Respond`: the `(document, status)` pair handed to
`Respond(ctx, w, data, status)`, or `none` when the path panics.
Defaults are `status = 500`, `data = {"error": "server_error"}`; a
`models.PublicError` switches to 400, discloses its code and consults the
registry; a `models.ValidationError` additionally adds the `"fields"` map,
each field consulting the registry. -/
def Error.JSON (e : Error) (err : GoError) : Option (Doc × Nat) :=
  let step1 : Option (String × Nat) :=
    if hasPublic err then
      match publicOf err with
      | none => none
      | some pub =>
        let s := e.lookup pub
        some (pub, if s ≠ 0 then s else 400)
    else
      some ("server_error", 500)
  match step1 with
  | none => none
  | some (eField, st1) =>
    if isValidation err then
      match renderFields e (fieldsOf err) st1 with
      | none => none
      | some (vem, st2) => some (⟨eField, some vem⟩, st2)
    else
      some (⟨eField, none⟩, st1)

/-- Field lists all of whose errors carry their code directly. -/
def mkFields (l : List (String × String)) : List (String × FieldErr) :=
  l.map fun p => (p.1, .publicErr p.2)

/-- The status produced by folding the field loop over a field/code list,
starting from `st`. -/
def statusFold (e : Error) (l : List (String × String)) (st : Nat) : Nat :=
  l.foldl (fun acc p => if e.lookup p.2 ≠ 0 then e.lookup p.2 else acc) st

/-- The status a validation rendering starts the field loop with: the
registered status of `"validation_error"` when nonzero, else the Bad
Request default 400. -/
def vstart (e : Error) : Nat :=
  if e.lookup validationPublicCode ≠ 0 then e.lookup validationPublicCode else 400

/-- `n` layers of cause-preserving wrapping. -/
def wrapN : Nat → String → GoError → GoError
  | 0, _, e => e
  | n + 1, m, e => .wrap m (wrapN n m e)

end Web

section CodecLemmas

open Handlers

lemma firstCommaIdx_of_not_mem {xs : List Char} (h : ',' ∉ xs) :
    firstCommaIdx xs = none := by
  induction xs with
  | nil => rfl
  | cons c rest ih =>
    simp only [List.mem_cons, not_or] at h
    simp [firstCommaIdx, Ne.symm h.1, ih h.2]

lemma firstCommaIdx_append {xs ys : List Char} (h : ',' ∉ xs) :
    firstCommaIdx (xs ++ ',' :: ys) = some xs.length := by
  induction xs with
  | nil => simp [firstCommaIdx]
  | cons c rest ih =>
    simp only [List.mem_cons, not_or] at h
    simp [firstCommaIdx, Ne.symm h.1, ih h.2]

lemma takeWhile_ne_comma_append {xs ys : List Char} (h : ',' ∉ xs) :
    (xs ++ ',' :: ys).takeWhile (· ≠ ',') = xs := by
  induction xs with
  | nil => simp [List.takeWhile]
  | cons c rest ih =>
    simp only [List.mem_cons, not_or] at h
    rw [List.cons_append, List.takeWhile_cons]
    simp only [ne_eq, decide_not] at ih
    simp [Ne.symm h.1, ih h.2]

lemma extractCode_no_comma_in_tail {s : List Char} (h : ',' ∉ s.tail) :
    extractCode s = s := by
  cases s with
  | nil => rfl
  | cons c rest =>
    simp only [List.tail_cons] at h
    simp [extractCode, firstCommaIdx_of_not_mem h]

lemma extractCode_append {c : Char} {xs ys : List Char} (h : ',' ∉ xs) :
    extractCode (c :: (xs ++ ',' :: ys)) = c :: xs := by
  simp [extractCode, firstCommaIdx_append h, List.take_succ_cons,
    List.take_left]

end CodecLemmas

section RendererLemmas

open Web

lemma statusFold_nil (e : Error) (st : Nat) : statusFold e [] st = st := rfl

lemma statusFold_cons (e : Error) (p : String × String) (l : List (String × String))
    (st : Nat) :
    statusFold e (p :: l) st = statusFold e l (if e.lookup p.2 ≠ 0 then e.lookup p.2 else st) :=
  rfl

lemma statusFold_of_zero (e : Error) {l : List (String × String)} (st : Nat)
    (h : ∀ p ∈ l, e.lookup p.2 = 0) : statusFold e l st = st := by
  induction l generalizing st with
  | nil => rfl
  | cons p rest ih =>
    rw [statusFold_cons, h p (List.mem_cons_self p rest)]
    simp only [ne_eq, not_true_eq_false, ite_false]
    exact ih st fun q hq => h q (List.mem_cons_of_mem p hq)

lemma statusFold_append (e : Error) (l1 l2 : List (String × String)) (st : Nat) :
    statusFold e (l1 ++ l2) st = statusFold e l2 (statusFold e l1 st) := by
  simp [statusFold, List.foldl_append]

lemma renderFields_mkFields (e : Error) (l : List (String × String)) (st : Nat) :
    renderFields e (mkFields l) st = some (l, statusFold e l st) := by
  induction l generalizing st with
  | nil => rfl
  | cons p rest ih =>
    obtain ⟨f, c⟩ := p
    show renderFields e ((f, .publicErr c) :: mkFields rest) st = _
    simp [renderFields, FieldErr.publicOf, ih, statusFold_cons]

lemma json_validation_mkFields (e : Error) (l : List (String × String)) :
    e.JSON (.validation (mkFields l)) =
      some (⟨validationPublicCode, some l⟩, statusFold e l (vstart e)) := by
  simp [Error.JSON, hasPublic, publicOf, isValidation, fieldsOf,
    renderFields_mkFields, vstart]

lemma lookup_head (codes : List (String × Nat)) (c : String) (s : Nat) :
    Error.lookup ⟨(c, s) :: codes⟩ c = s := by
  simp [Error.lookup, List.find?]

lemma lookup_filter_self (codes : List (String × Nat)) (c : String) :
    Error.lookup ⟨codes.filter (fun p => p.1 != c)⟩ c = 0 := by
  unfold Error.lookup
  rw [List.find?_eq_none.mpr]
  intro p hp
  have := List.of_mem_filter hp
  simpa using this

lemma lookup_setcode_zero (codes : List (String × Nat)) (c k : String) :
    Error.lookup ⟨(c, 0) :: codes.filter (fun p => p.1 != c)⟩ k =
      Error.lookup ⟨codes.filter (fun p => p.1 != c)⟩ k := by
  by_cases hk : c = k
  · subst hk
    rw [lookup_head, lookup_filter_self]
  · unfold Error.lookup
    simp only [List.find?]
    have : ((c, 0).1 == k) = false := by simpa using hk
    rw [this]

lemma renderFields_congr (e1 e2 : Error) (hl : ∀ k, e1.lookup k = e2.lookup k)
    (l : List (String × FieldErr)) (st : Nat) :
    renderFields e1 l st = renderFields e2 l st := by
  induction l generalizing st with
  | nil => rfl
  | cons p rest ih =>
    obtain ⟨f, fe⟩ := p
    cases hp : fe.publicOf with
    | none => simp [renderFields, hp]
    | some pub => simp [renderFields, hp, hl pub, ih]

lemma json_congr (e1 e2 : Error) (hl : ∀ k, e1.lookup k = e2.lookup k)
    (err : GoError) : e1.JSON err = e2.JSON err := by
  simp only [Error.JSON, renderFields_congr e1 e2 hl, hl]

end RendererLemmas

/-- Claim C1: a Disclosable error (dynamic type exposing `Public() string`)
with public code `c` that is not a validation aggregate renders, when the
registry has no entry for `c`, to the document `{"error": c}` with HTTP
status 400. -/
theorem json_disclosable_default (e : Web.Error) (err : Web.GoError) (c : String)
    (hp : Web.hasPublic err = true) (hpub : Web.publicOf err = some c)
    (hnv : Web.isValidation err = false) (h0 : e.lookup c = 0) :
    e.JSON err = some (⟨c, none⟩, 400) := by
  simp [Web.Error.JSON, hp, hpub, hnv, h0]

/-- Witness for C1 at `err = publicErr "invalid_form"` and the empty registry. -/
theorem json_disclosable_default_witness :
    Web.hasPublic (.publicErr "invalid_form") = true ∧
    Web.publicOf (.publicErr "invalid_form") = some "invalid_form" ∧
    Web.isValidation (.publicErr "invalid_form") = false ∧
    (⟨[]⟩ : Web.Error).lookup "invalid_form" = 0 ∧
    (⟨[]⟩ : Web.Error).JSON (.publicErr "invalid_form") =
      some (⟨"invalid_form", none⟩, 400) :=
  ⟨rfl, rfl, rfl, rfl,
    json_disclosable_default ⟨[]⟩ (.publicErr "invalid_form") "invalid_form"
      rfl rfl rfl rfl⟩

/-- Claim C2: an error whose dynamic type does not expose `Public() string`
(in particular it is not a validation aggregate) renders to exactly
`{"error": "server_error"}` with HTTP status 500, a constant output in which
nothing of the original error appears. -/
theorem json_internal_server_error (e : Web.Error) (err : Web.GoError)
    (hp : Web.hasPublic err = false) :
    e.JSON err = some (⟨"server_error", none⟩, 500) := by
  cases err <;> simp_all [Web.hasPublic, Web.Error.JSON, Web.isValidation]

/-- Witness for C2 at an internal error carrying driver detail. -/
theorem json_internal_server_error_witness :
    Web.hasPublic (.internalErr "pq: connection refused") = false ∧
    (⟨[]⟩ : Web.Error).JSON (.internalErr "pq: connection refused") =
      some (⟨"server_error", none⟩, 500) :=
  ⟨rfl, json_internal_server_error ⟨[]⟩ (.internalErr "pq: connection refused") rfl⟩

/-- Claim C3: rendering a validation aggregate puts each field's public code
in `document["fields"]`, and when exactly one field's code has a registered
nonzero status override and the other fields' codes have none, the final
status is that override rather than the default 400. -/
theorem json_validation_single_override (e : Web.Error)
    (pre post : List (String × String)) (f c : String) (s : Nat)
    (hpre : ∀ p ∈ pre, e.lookup p.2 = 0)
    (hpost : ∀ p ∈ post, e.lookup p.2 = 0)
    (hc : e.lookup c = s) (hs : s ≠ 0) :
    e.JSON (.validation (Web.mkFields (pre ++ (f, c) :: post))) =
      some (⟨Web.validationPublicCode, some (pre ++ (f, c) :: post)⟩, s) := by
  rw [json_validation_mkFields, statusFold_append, statusFold_of_zero e _ hpre,
    statusFold_cons, hc, if_pos hs, statusFold_of_zero e _ hpost]

/-- Witness for C3 at the spec's example: fields `email -> invalid_email`
and `age -> too_young`, registry `too_young -> 422`, status 422. -/
theorem json_validation_single_override_witness :
    (∀ p ∈ [("email", "invalid_email")],
      (⟨[("too_young", 422)]⟩ : Web.Error).lookup p.2 = 0) ∧
    (⟨[("too_young", 422)]⟩ : Web.Error).lookup "too_young" = 422 ∧
    (⟨[("too_young", 422)]⟩ : Web.Error).JSON
        (.validation (Web.mkFields
          [("email", "invalid_email"), ("age", "too_young")])) =
      some (⟨Web.validationPublicCode,
        some [("email", "invalid_email"), ("age", "too_young")]⟩, 422) :=
  ⟨by decide, by decide,
    json_validation_single_override ⟨[("too_young", 422)]⟩
      [("email", "invalid_email")] [] "age" "too_young" 422
      (by decide) (by decide) (by decide) (by decide)⟩

/-- Claim C4: after `SetCode` maps code `c` to status 422, rendering a
Disclosable error with code `c` yields status 422; a later `SetCode` for the
same code `c` overwrites the earlier entry, so the registry then holds the
new status and rendering yields it. -/
theorem setcode_register_and_overwrite (e e1 e2 : Web.Error) (c : String)
    (s2 : Nat)
    (h1 : e.SetCode (.publicErr c) 422 = some e1)
    (h2 : e1.SetCode (.publicErr c) s2 = some e2) (hs2 : s2 ≠ 0) :
    e1.JSON (.publicErr c) = some (⟨c, none⟩, 422) ∧
    e2.lookup c = s2 ∧
    e2.JSON (.publicErr c) = some (⟨c, none⟩, s2) := by
  simp only [Web.Error.SetCode, Web.publicOf, Option.map_some',
    Option.some.injEq] at h1 h2
  subst h1
  subst h2
  refine ⟨?_, ?_, ?_⟩
  · simp [Web.Error.JSON, Web.hasPublic, Web.publicOf, Web.isValidation,
      lookup_head]
  · exact lookup_head _ c s2
  · simp only [Web.Error.JSON, Web.hasPublic, Web.publicOf, Web.isValidation,
      lookup_head, if_pos hs2]
    rfl

/-- Witness for C4: register `too_young -> 422` in the empty registry, render,
then re-register `too_young -> 409` and observe the overwrite. -/
theorem setcode_register_and_overwrite_witness :
    (⟨[]⟩ : Web.Error).SetCode (.publicErr "too_young") 422 =
      some ⟨[("too_young", 422)]⟩ ∧
    (⟨[("too_young", 422)]⟩ : Web.Error).SetCode (.publicErr "too_young") 409 =
      some ⟨[("too_young", 409)]⟩ ∧
    (409 : Nat) ≠ 0 ∧
    (⟨[("too_young", 422)]⟩ : Web.Error).JSON (.publicErr "too_young") =
      some (⟨"too_young", none⟩, 422) ∧
    (⟨[("too_young", 409)]⟩ : Web.Error).lookup "too_young" = 409 ∧
    (⟨[("too_young", 409)]⟩ : Web.Error).JSON (.publicErr "too_young") =
      some (⟨"too_young", none⟩, 409) := by
  have h := setcode_register_and_overwrite ⟨[]⟩ ⟨[("too_young", 422)]⟩
    ⟨[("too_young", 409)]⟩ "too_young" 409 (by decide) (by decide) (by decide)
  exact ⟨by decide, by decide, by decide, h.1, h.2.1, h.2.2⟩

/-- Counterexample to claim C5 as stated: the empty code contains no comma,
yet `ControllerError.Public` on the well-formed encoding
`"handlers: , oops"` returns the whole remainder `", oops"`, not the code
`""` — the comma scan starts at index 1 and misses the delimiter at index 0. -/
theorem public_empty_code_roundtrip_fails :
    (',' ∉ "".data) ∧
    Handlers.Public? (Handlers.Encode "handlers" "" "oops") = some ", oops" ∧
    some ", oops" ≠ some "" :=
  ⟨by decide, rfl, by decide⟩

/-- Claim C5 amended: for every `tag`, comma-free `code` and `msg`, the
spec's codec satisfies `Decode tag (Encode tag code msg) = code`; and when
`code` is additionally nonempty, `ControllerError.Public` on the encoding
`"handlers: <code>, <msg>"` returns exactly `code`. -/
theorem codec_code_roundtrip (tag code msg : String) (hcomma : ',' ∉ code.data) :
    Handlers.Decode tag (Handlers.Encode tag code msg) = code ∧
    (code ≠ "" →
      Handlers.Public? (Handlers.Encode "handlers" code msg) = some code) := by
  constructor
  · have hdata : (Handlers.Encode tag code msg).data =
        (tag.data ++ [':', ' ']) ++ (code.data ++ ',' :: ' ' :: msg.data) := by
      simp [Handlers.Encode]
    unfold Handlers.Decode
    rw [hdata, List.drop_left' (by simp), takeWhile_ne_comma_append hcomma]
  · intro hne
    obtain ⟨cd⟩ := code
    cases cd with
    | nil => exact absurd rfl hne
    | cons c0 code' =>
      simp only [List.mem_cons, not_or] at hcomma
      have hdata : (Handlers.Encode "handlers" ⟨c0 :: code'⟩ msg).data =
          Handlers.handlersTag.data ++
            (c0 :: (code' ++ ',' :: ' ' :: msg.data)) := by
        simp [Handlers.Encode, Handlers.handlersTag]
      unfold Handlers.Public?
      rw [hdata, List.drop_left' rfl]
      rw [if_neg (by simp)]
      rw [extractCode_append hcomma.2]

/-- Witness for C5 (amended) at `tag = "models"`, `code = "invalid_parse"`,
`msg = "contents are not in appropriate format"`. -/
theorem codec_code_roundtrip_witness :
    (',' ∉ "invalid_parse".data) ∧
    Handlers.Decode "models"
        (Handlers.Encode "models" "invalid_parse"
          "contents are not in appropriate format") = "invalid_parse" ∧
    Handlers.Public? (Handlers.Encode "handlers" "invalid_parse" "bad") =
      some "invalid_parse" := by
  have h := codec_code_roundtrip "models" "invalid_parse"
    "contents are not in appropriate format" (by decide)
  have h2 := codec_code_roundtrip "handlers" "invalid_parse" "bad" (by decide)
  exact ⟨by decide, h.1, h2.2 (by decide)⟩

/-- Claim C6: `IsShutdown` is true on `NewShutdownError` and on any number of
cause-preserving wrapping layers around it; it is invariant under one layer
of wrapping; it is false on every non-shutdown leaf no matter the message
text (identity-only detection); and in general it holds exactly when the
innermost cause is the shutdown marker type. -/
theorem isShutdown_characterization :
    (∀ msg, Web.IsShutdown (Web.NewShutdownError msg) = true) ∧
    (∀ n m msg, Web.IsShutdown (Web.wrapN n m (Web.NewShutdownError msg)) = true) ∧
    (∀ m e, Web.IsShutdown (.wrap m e) = Web.IsShutdown e) ∧
    (∀ msg, Web.IsShutdown (.internalErr msg) = false) ∧
    (∀ c, Web.IsShutdown (.publicErr c) = false) ∧
    (∀ s, Web.IsShutdown (.controller s) = false) ∧
    (∀ fs, Web.IsShutdown (.validation fs) = false) ∧
    (∀ e, Web.IsShutdown e = true ↔ ∃ m, Web.Cause e = .shutdownErr m) := by
  have hwrap : ∀ m e, Web.Cause (.wrap m e) = Web.Cause e := fun m e => rfl
  have hIsWrap : ∀ m e, Web.IsShutdown (.wrap m e) = Web.IsShutdown e :=
    fun m e => by simp [Web.IsShutdown, hwrap]
  refine ⟨fun msg => rfl, ?_, hIsWrap, fun msg => rfl, fun c => rfl,
    fun s => rfl, fun fs => rfl, ?_⟩
  · intro n m msg
    induction n with
    | zero => rfl
    | succ k ih => rw [Web.wrapN, hIsWrap]; exact ih
  · intro e
    induction e with
    | wrap m e ih => rw [hIsWrap, hwrap]; exact ih
    | shutdownErr msg => exact ⟨fun _ => ⟨msg, rfl⟩, fun _ => rfl⟩
    | internalErr msg => simp [Web.IsShutdown, Web.Cause]
    | publicErr c => simp [Web.IsShutdown, Web.Cause]
    | validation fs => simp [Web.IsShutdown, Web.Cause]
    | controller s => simp [Web.IsShutdown, Web.Cause]

/-- Under claim C7 (a code bug): the rendering path does panic on a
Disclosable error shorter than the `"handlers: "` tag — `Error.JSON` on the
`ControllerError` `"x"` reaches the out-of-range slice inside `Public()`
(`none` models the Go panic), for every registry state. -/
theorem json_panics_on_short_controller (e : Web.Error) :
    e.JSON (.controller "x") = none := rfl

/-- Counterexample to claim C8 as stated: the two field lists below are the
same field map (a permutation with distinct keys), so a Go `range` over that
map may visit them in either order, yet the two orders render to different
statuses (409 versus 422) when both fields' codes carry distinct registered
overrides. Rendering the same error value twice is therefore not guaranteed
to yield identical pairs. -/
theorem json_order_dependent_status :
    ([("f", "a"), ("g", "b")] : List (String × String)).Perm
      [("g", "b"), ("f", "a")] ∧
    (["f", "g"] : List String).Nodup ∧
    (⟨[("a", 422), ("b", 409)]⟩ : Web.Error).JSON
        (.validation (Web.mkFields [("f", "a"), ("g", "b")])) ≠
      (⟨[("a", 422), ("b", 409)]⟩ : Web.Error).JSON
        (.validation (Web.mkFields [("g", "b"), ("f", "a")])) :=
  ⟨List.Perm.swap ("g", "b") ("f", "a") [], by decide, by decide⟩

/-- Claim C8 amended: rendering is a pure function of the registry, the error
value and the field iteration order, so rendering twice with the same order
yields identical pairs; across two iteration orders of the same aggregate
(permuted field lists) both renders succeed, the `"error"` entry is the same
constant and the `"fields"` entries are permutations of each other (the same
field map), but the final status is the respective order's fold and may
differ when several fields carry distinct overrides. -/
theorem json_perm_invariant (e : Web.Error) (a1 a2 : List (String × String))
    (h : a1.Perm a2) :
    e.JSON (.validation (Web.mkFields a1)) =
      some (⟨Web.validationPublicCode, some a1⟩, Web.statusFold e a1 (Web.vstart e)) ∧
    e.JSON (.validation (Web.mkFields a2)) =
      some (⟨Web.validationPublicCode, some a2⟩, Web.statusFold e a2 (Web.vstart e)) ∧
    a1.Perm a2 :=
  ⟨json_validation_mkFields e a1, json_validation_mkFields e a2, h⟩

/-- Witness for C8 (amended) at the two orders of the counterexample's
aggregate. -/
theorem json_perm_invariant_witness :
    (⟨[("a", 422), ("b", 409)]⟩ : Web.Error).JSON
        (.validation (Web.mkFields [("f", "a"), ("g", "b")])) =
      some (⟨Web.validationPublicCode, some [("f", "a"), ("g", "b")]⟩,
        Web.statusFold ⟨[("a", 422), ("b", 409)]⟩ [("f", "a"), ("g", "b")]
          (Web.vstart ⟨[("a", 422), ("b", 409)]⟩)) ∧
    (⟨[("a", 422), ("b", 409)]⟩ : Web.Error).JSON
        (.validation (Web.mkFields [("g", "b"), ("f", "a")])) =
      some (⟨Web.validationPublicCode, some [("g", "b"), ("f", "a")]⟩,
        Web.statusFold ⟨[("a", 422), ("b", 409)]⟩ [("g", "b"), ("f", "a")]
          (Web.vstart ⟨[("a", 422), ("b", 409)]⟩)) ∧
    ([("f", "a"), ("g", "b")] : List (String × String)).Perm
      [("g", "b"), ("f", "a")] :=
  json_perm_invariant ⟨[("a", 422), ("b", 409)]⟩ [("f", "a"), ("g", "b")]
    [("g", "b"), ("f", "a")] (List.Perm.swap ("g", "b") ("f", "a") [])

/-- Claim C9: registering status 0 for a code is indistinguishable at render
time from never registering the code — with the entry `(c, 0)` the renderer
behaves, on every error, exactly as with a registry from which `c` is absent,
and a Disclosable error with code `c` still renders with the default status
400, never 0. -/
theorem setcode_zero_is_unregistered (e e0 : Web.Error) (c : String)
    (h : e.SetCode (.publicErr c) 0 = some e0) :
    (∀ err, e0.JSON err =
      (⟨e.codes.filter (fun p => p.1 != c)⟩ : Web.Error).JSON err) ∧
    e0.JSON (.publicErr c) = some (⟨c, none⟩, 400) := by
  simp only [Web.Error.SetCode, Web.publicOf, Option.map_some',
    Option.some.injEq] at h
  subst h
  constructor
  · exact fun err => json_congr _ _ (lookup_setcode_zero e.codes c) err
  · simp [Web.Error.JSON, Web.hasPublic, Web.publicOf, Web.isValidation,
      lookup_head]

/-- Witness for C9: register `not_found -> 0` over a registry that previously
mapped `not_found` to 404. -/
theorem setcode_zero_is_unregistered_witness :
    (⟨[("not_found", 404)]⟩ : Web.Error).SetCode (.publicErr "not_found") 0 =
      some ⟨[("not_found", 0)]⟩ ∧
    (⟨[("not_found", 0)]⟩ : Web.Error).JSON (.publicErr "not_found") =
      some (⟨"not_found", none⟩, 400) := by
  have h := setcode_zero_is_unregistered ⟨[("not_found", 404)]⟩
    ⟨[("not_found", 0)]⟩ "not_found" (by decide)
  exact ⟨by decide, h.2⟩

/-- Claim C10: for a `ControllerError` string of length at least
`len("handlers: ")` whose remainder past those 10 characters has no comma at
index 1 or beyond, `Public()` returns the entire remainder unchanged — a
comma at index 0 of the remainder is skipped by the scan and comes back in
the result. -/
theorem public_returns_whole_remainder (s : String)
    (hlen : Handlers.handlersTag.data.length ≤ s.data.length)
    (hc : ',' ∉ (s.data.drop Handlers.handlersTag.data.length).tail) :
    Handlers.Public? s = some ⟨s.data.drop Handlers.handlersTag.data.length⟩ := by
  unfold Handlers.Public?
  rw [if_neg (by omega), extractCode_no_comma_in_tail hc]

/-- Witness for C10 at `"handlers: ,abc"`: the remainder `",abc"` starts with
a comma and has no other comma, and `Public()` returns it whole. -/
theorem public_returns_whole_remainder_witness :
    Handlers.handlersTag.data.length ≤ "handlers: ,abc".data.length ∧
    (',' ∉ ("handlers: ,abc".data.drop Handlers.handlersTag.data.length).tail) ∧
    Handlers.Public? "handlers: ,abc" =
      some ⟨"handlers: ,abc".data.drop Handlers.handlersTag.data.length⟩ :=
  ⟨by decide, by decide,
    public_returns_whole_remainder "handlers: ,abc" (by decide) (by decide)⟩
